import Mathlib

/-!
Shallow embedding of the ZLAC8015D motor-controller driver
(`zlac8015d/ZLAC8015D.py`).  The Modbus register client is modelled
abstractly: a read response is `Option (List ℕ)` where `none` stands for a
malformed response (one with no `registers` attribute, which raises
`AttributeError` in the Python code), and `some regs` for a response carrying
the register words `regs`.  Writes are modelled as the `WriteOp` record the
controller would hand to the client.  Real-valued arithmetic (Python floats,
`np.pi`) is modelled over `ℚ`, with π kept as an explicit parameter `piA`.
-/

namespace ZLAC

/-- A register write issued through the client: starting address and the
word values written in one transaction. -/
structure WriteOp where
  addr : ℕ
  values : List ℕ
  deriving Repr, DecidableEq

/-- A register read issued through the client: starting address and word
count read in one transaction. -/
structure ReadOp where
  addr : ℕ
  count : ℕ
  deriving Repr, DecidableEq

/-! ### Register addresses and constants (from `Controller.__init__`) -/

def CONTROL_REG : ℕ := 0x200E
def OPR_MODE : ℕ := 0x200D
def L_ACL_TIME : ℕ := 0x2080
def L_DCL_TIME : ℕ := 0x2082
def L_CMD_RPM : ℕ := 0x2088
def L_CMD_REL_POS_HI : ℕ := 0x208A
def L_FB_POS_HI : ℕ := 0x20A7
def L_FAULT : ℕ := 0x20A5

/-- The fault-code constants `OVER_VOLT .. HIGH_TEMP` collected into
`FAULT_LIST`, in source order. -/
def FAULT_LIST : List ℕ :=
  [0x0001, 0x0002, 0x0004, 0x0008, 0x0010, 0x0020,
   0x0040, 0x0080, 0x0100, 0x0200, 0x0400]

/-- Counts per revolution (`self.cpr = 16384`). -/
def cpr : ℕ := 16384

/-- `self.travel_in_one_rev = 2 * np.pi * self.R_Wheel`, with π abstracted
as the parameter `piA` and the wheel radius as `RW`. -/
def travel_in_one_rev (piA RW : ℚ) : ℚ := 2 * piA * RW

/-! ### Numeric helpers -/

/-- Python `int(x)`: truncation of a real toward zero. -/
def ratTrunc (q : ℚ) : ℤ := if 0 ≤ q then ⌊q⌋ else ⌈q⌉

/-- `np.clip(val, lo, hi)`. -/
def clip (val lo hi : ℚ) : ℚ := if val < lo then lo else if hi < val then hi else val

/-- `Controller.to_int16`: `0xFFFF & int(val)` (Python `&` on a possibly
negative arbitrary-precision int is two's-complement, i.e. a nonnegative
residue mod 2^16). -/
def to_int16 (val : ℚ) : ℕ := ((ratTrunc val) % 65536).toNat

/-- `np.int16(w)` applied to a register word: reinterpret mod 2^16 as a
signed 16-bit value. -/
def np_int16 (w : ℕ) : ℤ :=
  if w % 65536 < 32768 then (w % 65536 : ℤ) else (w % 65536 : ℤ) - 65536

/-- `np.int32(n)` applied to a nonnegative reassembled value: reinterpret
mod 2^32 as a signed 32-bit value. -/
def np_int32 (n : ℕ) : ℤ :=
  if n % 4294967296 < 2147483648 then (n % 4294967296 : ℤ)
  else (n % 4294967296 : ℤ) - 4294967296

/-- `Controller.map`: the pure linear range mapping
`(val - in_min) * (out_max - out_min) / (in_max - in_min) + out_min`. -/
def map (val in_min in_max out_min out_max : ℚ) : ℚ :=
  (val - in_min) * (out_max - out_min) / (in_max - in_min) + out_min

/-! ### Unit codec -/

/-- `Controller.rpm_to_linear`: `rpm * 2 * np.pi / 60.0 * self.R_Wheel`. -/
def rpm_to_linear (piA RW rpm : ℚ) : ℚ := rpm * 2 * piA / 60 * RW

/-- The 32-bit integer `dec = int(self.map(deg, -1440, 1440, -65536, 65536))`
computed inside `deg_to_32bitArray`. -/
def degDec (deg : ℚ) : ℤ := ratTrunc (map deg (-1440) 1440 (-65536) 65536)

/-- `Controller.deg_to_32bitArray`: split `dec` into
`[(dec & 0xFFFF0000) >> 16, dec & 0x0000FFFF]`.  On Python ints this equals
taking the nonnegative residue of `dec` mod 2^32 and splitting it into its
high and low 16-bit halves. -/
def deg_to_32bitArray (deg : ℚ) : List ℕ :=
  let u : ℕ := ((degDec deg) % 4294967296).toNat
  [u / 65536, u % 65536]

/-- Reassembly `np.int32(((hi & 0xFFFF) << 16) | (lo & 0xFFFF))` used by
`get_wheels_travelled` / `get_wheels_tick` (the shifted halves have disjoint
bits, so `|` is `+`). -/
def split_words_to_ticks (hi lo : ℕ) : ℤ :=
  np_int32 ((hi % 65536) * 65536 + lo % 65536)

/-! ### Controller operations -/

/-- Result of `Controller.set_mode`: the Python code returns `0` without
touching the client when the mode is not 1, 2 or 3, and otherwise returns
the result of a single register write. -/
inductive SetModeResult where
  | invalidMode : SetModeResult
  | ok : WriteOp → SetModeResult
  deriving Repr, DecidableEq

/-- `Controller.set_mode`. -/
def set_mode (mode : ℤ) : SetModeResult :=
  if mode = 1 ∨ mode = 2 ∨ mode = 3 then .ok ⟨OPR_MODE, [mode.toNat]⟩
  else .invalidMode

/-- `Controller.set_accel_time`: saturate both millisecond values into
`[0, 32767]`, then one 2-register write at `L_ACL_TIME`. -/
def set_accel_time (L_ms R_ms : ℚ) : WriteOp :=
  let L := if 32767 < L_ms then (32767 : ℚ) else if L_ms < 0 then 0 else L_ms
  let R := if 32767 < R_ms then (32767 : ℚ) else if R_ms < 0 then 0 else R_ms
  ⟨L_ACL_TIME, [(ratTrunc L).toNat, (ratTrunc R).toNat]⟩

/-- `Controller.set_decel_time`: same saturation, write at `L_DCL_TIME`. -/
def set_decel_time (L_ms R_ms : ℚ) : WriteOp :=
  let L := if 32767 < L_ms then (32767 : ℚ) else if L_ms < 0 then 0 else L_ms
  let R := if 32767 < R_ms then (32767 : ℚ) else if R_ms < 0 then 0 else R_ms
  ⟨L_DCL_TIME, [(ratTrunc L).toNat, (ratTrunc R).toNat]⟩

/-- `Controller.set_rpm`: clip each rpm to `[-3000, 3000]`, encode via
`to_int16`, one 2-register write at `L_CMD_RPM`. -/
def set_rpm (L_rpm R_rpm : ℚ) : WriteOp :=
  ⟨L_CMD_RPM, [to_int16 (clip L_rpm (-3000) 3000), to_int16 (clip R_rpm (-3000) 3000)]⟩

/-- `Controller.set_relative_angle`: encode each axis with
`deg_to_32bitArray` and issue one 4-register write at `L_CMD_REL_POS_HI`. -/
def set_relative_angle (ang_L ang_R : ℚ) : WriteOp :=
  ⟨L_CMD_REL_POS_HI, deg_to_32bitArray ang_L ++ deg_to_32bitArray ang_R⟩

/-- `Controller.modbus_fail_read_handler` over a response trace
`resp : ℕ → Option (List ℕ)` (call number ↦ response).  `none` is a
malformed response (`AttributeError` caught, loop retries); `some rs` has a
register list, from which the first `word` entries are copied — if it is
shorter, the `IndexError` escapes (modelled `none` result).  The `while`
loop is given explicit fuel; exhausted fuel models non-termination.
Returns the copied words together with the total number of reads issued. -/
def modbus_fail_read_handler (resp : ℕ → Option (List ℕ)) (word : ℕ) :
    ℕ → ℕ → Option (List ℕ × ℕ)
  | _, 0 => none
  | k, fuel + 1 =>
    match resp k with
    | none => modbus_fail_read_handler resp word (k + 1) fuel
    | some rs => if word ≤ rs.length then some (rs.take word, k + 1) else none

/-- Whether a fault word raises the per-axis fault flag:
`code in self.FAULT_LIST`. -/
def fault_flag (code : ℕ) : Bool := decide (code ∈ FAULT_LIST)

/-- `Controller.get_fault_code`: a single direct
`client.read_holding_registers(L_FAULT, 2)` — not routed through
`modbus_fail_read_handler` — classifying each axis word by `FAULT_LIST`
membership.  Returns the issued `ReadOp`, the classification (`none` when
the single response is malformed or too short, in which case the exception
propagates to the caller), and the number of reads issued. -/
def get_fault_code (resp : ℕ → Option (List ℕ)) :
    ReadOp × Option ((Bool × ℕ) × (Bool × ℕ)) × ℕ :=
  (⟨L_FAULT, 2⟩,
   match resp 0 with
   | none => none
   | some regs =>
     if 2 ≤ regs.length then
       some ((fault_flag (regs.getD 0 0), regs.getD 0 0),
             (fault_flag (regs.getD 1 0), regs.getD 1 0))
     else none,
   1)

/-- `Controller.get_rpm`, applied to the word pair obtained from the
read-with-retry of 2 registers at `L_FB_RPM`: each word is decoded as
`np.int16(w) / 10.0`. -/
def get_rpm (regs : List ℕ) : ℚ × ℚ :=
  ((np_int16 (regs.getD 0 0) : ℚ) / 10, (np_int16 (regs.getD 1 0) : ℚ) / 10)

/-- `Controller.get_linear_velocities`: compose `get_rpm` with
`rpm_to_linear`, negating the right wheel's rpm first. -/
def get_linear_velocities (piA RW : ℚ) (regs : List ℕ) : ℚ × ℚ :=
  let r := get_rpm regs
  (rpm_to_linear piA RW r.1, rpm_to_linear piA RW (-r.2))

/-- `Controller.get_wheels_travelled`, split into the read it issues
(4 registers at `L_FB_POS_HI` in one transaction) and the decoding of the
4-word response: reassemble each axis via `split_words_to_ticks`, then
`(float(pulse) / cpr) * travel_in_one_rev`. -/
def get_wheels_travelled (piA RW : ℚ) (regs : List ℕ) : ReadOp × (ℚ × ℚ) :=
  (⟨L_FB_POS_HI, 4⟩,
   ((split_words_to_ticks (regs.getD 0 0) (regs.getD 1 0) : ℚ) / cpr *
      travel_in_one_rev piA RW,
    (split_words_to_ticks (regs.getD 2 0) (regs.getD 3 0) : ℚ) / cpr *
      travel_in_one_rev piA RW))

/-! ### Helper lemmas -/

lemma ratTrunc_intCast (n : ℤ) : ratTrunc (n : ℚ) = n := by
  unfold ratTrunc
  split <;> simp

lemma le_ratTrunc_of_nonpos {a : ℤ} {q : ℚ} (ha : a ≤ 0) (h : (a : ℚ) ≤ q) :
    a ≤ ratTrunc q := by
  unfold ratTrunc
  split
  · exact le_trans ha (Int.floor_nonneg.mpr (by assumption))
  · calc a = ⌈(a : ℚ)⌉ := (Int.ceil_intCast a).symm
      _ ≤ ⌈q⌉ := Int.ceil_le_ceil h

lemma le_ratTrunc_of_nonneg {a : ℤ} {q : ℚ} (ha : 0 ≤ a) (h : (a : ℚ) ≤ q) :
    a ≤ ratTrunc q := by
  have h0 : 0 ≤ q := le_trans (by exact_mod_cast ha) h
  unfold ratTrunc
  rw [if_pos h0]
  exact Int.le_floor.mpr h

lemma ratTrunc_le_of_nonneg {b : ℤ} {q : ℚ} (hb : 0 ≤ b) (h : q ≤ (b : ℚ)) :
    ratTrunc q ≤ b := by
  unfold ratTrunc
  split
  · calc ⌊q⌋ ≤ ⌊(b : ℚ)⌋ := Int.floor_le_floor h
      _ = b := Int.floor_intCast b
  · have hq : q ≤ 0 := le_of_lt (lt_of_not_ge (by assumption))
    exact le_trans (Int.ceil_le.mpr (by exact_mod_cast hq)) hb

/-- Membership in `FAULT_LIST` is exactly being a power of two with exponent
below 11. -/
lemma mem_FAULT_LIST_iff (c : ℕ) : c ∈ FAULT_LIST ↔ ∃ k < 11, c = 2 ^ k := by
  constructor
  · intro h
    simp only [FAULT_LIST, List.mem_cons, List.not_mem_nil, or_false] at h
    rcases h with rfl | rfl | rfl | rfl | rfl | rfl | rfl | rfl | rfl | rfl | rfl
    exacts [⟨0, by norm_num⟩, ⟨1, by norm_num⟩, ⟨2, by norm_num⟩, ⟨3, by norm_num⟩,
      ⟨4, by norm_num⟩, ⟨5, by norm_num⟩, ⟨6, by norm_num⟩, ⟨7, by norm_num⟩,
      ⟨8, by norm_num⟩, ⟨9, by norm_num⟩, ⟨10, by norm_num⟩]
  · rintro ⟨k, hk, rfl⟩
    interval_cases k <;> decide

lemma fault_flag_eq_pow (c : ℕ) :
    fault_flag c = decide (∃ k < 11, c = 2 ^ k) := by
  unfold fault_flag
  exact decide_eq_decide.mpr (mem_FAULT_LIST_iff c)

/-- General behavior of the retry loop: with `N` malformed responses
starting at call `start` followed by a well-formed one of sufficient length,
the loop returns the first `word` words of that response after `start + N + 1`
total reads, for any fuel above `N`. -/
lemma modbus_fail_read_handler_spec (resp : ℕ → Option (List ℕ)) (word : ℕ)
    (regs : List ℕ) :
    ∀ N start fuel, (∀ i, i < N → resp (start + i) = none) →
      resp (start + N) = some regs → word ≤ regs.length → N < fuel →
      modbus_fail_read_handler resp word start fuel =
        some (regs.take word, start + N + 1) := by
  intro N
  induction N with
  | zero =>
    intro start fuel h0 hg hlen hf
    obtain ⟨f, rfl⟩ : ∃ f, fuel = f + 1 := ⟨fuel - 1, by omega⟩
    have hg0 : resp start = some regs := by simpa using hg
    simp [modbus_fail_read_handler, hg0, hlen]
  | succ n ih =>
    intro start fuel h0 hg hlen hf
    obtain ⟨f, rfl⟩ : ∃ f, fuel = f + 1 := ⟨fuel - 1, by omega⟩
    have h00 : resp start = none := by simpa using h0 0 (Nat.succ_pos n)
    have hstep := ih (start + 1) f
      (fun i hi => by
        have := h0 (i + 1) (by omega)
        simpa [Nat.add_comm, Nat.add_left_comm, Nat.add_assoc] using this)
      (by
        have : start + 1 + n = start + (n + 1) := by omega
        rw [this]; exact hg)
      hlen (by omega)
    rw [modbus_fail_read_handler, h00,
      show start + (n + 1) + 1 = start + 1 + n + 1 from by omega]
    exact hstep

/-- Splitting a signed 32-bit value into its two 16-bit register words and
reassembling through `split_words_to_ticks` is the identity on
`[-2^31, 2^31)`. -/
lemma split_words_roundtrip (d : ℤ) (h1 : -2147483648 ≤ d) (h2 : d < 2147483648) :
    split_words_to_ticks ((d % 4294967296).toNat / 65536)
      ((d % 4294967296).toNat % 65536) = d := by
  have hn : 0 ≤ d % 4294967296 :=
    Int.emod_nonneg d (by norm_num)
  have hl : d % 4294967296 < 4294967296 :=
    Int.emod_lt_of_pos d (by norm_num)
  have hu : ((d % 4294967296).toNat : ℤ) = d % 4294967296 :=
    Int.toNat_of_nonneg hn
  set u : ℕ := (d % 4294967296).toNat with hudef
  have hu32 : u < 4294967296 := by omega
  have heq : u / 65536 % 65536 * 65536 + u % 65536 % 65536 = u := by omega
  unfold split_words_to_ticks np_int32
  rw [heq, Nat.mod_eq_of_lt hu32]
  split <;> omega

/-! ### Claim theorems -/

/-- C1.  Fault classification is exact membership in the fixed fault set:
for each axis, `get_fault_code` reports `faulted = true` exactly when the
fault word is one of the eleven single-bit fault codes `2^0 .. 2^10`
(so `0x0000` and any word outside the fault set — e.g. an OR of two fault
bits — yield `false`). -/
theorem C1_fault_classification (L R : ℕ) :
    (get_fault_code (fun _ => some [L, R])).2.1 =
      some ((decide (∃ k < 11, L = 2 ^ k), L),
            (decide (∃ k < 11, R = 2 ^ k), R)) := by
  simp [get_fault_code, fault_flag_eq_pow]

/-- C2 counterexample.  `deg_to_32bitArray` does not clamp: the out-of-domain
input 2880° encodes to the word pair `[2, 0]` (32-bit value 131072), which
differs from the encoding `[1, 0]` (value 65536) of the nearest domain bound
1440°, refuting "silently clamped to the nearest bound before encoding". -/
theorem C2_no_clamp_counterexample :
    deg_to_32bitArray 2880 = [2, 0] ∧ deg_to_32bitArray 1440 = [1, 0] := by
  have h1 : degDec 2880 = 131072 := by norm_num [degDec, map, ratTrunc]
  have h2 : degDec 1440 = 65536 := by norm_num [degDec, map, ratTrunc]
  constructor
  · simp only [deg_to_32bitArray, h1]
    decide
  · simp only [deg_to_32bitArray, h2]
    decide

/-- C2 amended.  `set_relative_angle` never errors on out-of-domain degrees,
but it does not clamp them either: every input is encoded by the same linear
degree mapping, extrapolated beyond the domain, so inputs ≥ 2880° encode a
32-bit value strictly greater than 65536, outside anything the in-domain
mapping produces. -/
theorem C2_no_clamp_extrapolation :
    (∀ aL aR : ℚ, (set_relative_angle aL aR).values =
      deg_to_32bitArray aL ++ deg_to_32bitArray aR) ∧
    (∀ deg : ℚ, 2880 ≤ deg → 65536 < degDec deg) := by
  refine ⟨fun _ _ => rfl, fun deg h => ?_⟩
  have hq : ((131072 : ℤ) : ℚ) ≤ map deg (-1440) 1440 (-65536) 65536 := by
    unfold map
    push_cast
    linarith
  have := le_ratTrunc_of_nonneg (by norm_num) hq
  unfold degDec
  omega

/-- Witness for C2's amended theorem at the concrete input 2880°. -/
theorem C2_no_clamp_extrapolation_witness : 65536 < degDec 2880 :=
  C2_no_clamp_extrapolation.2 2880 (by norm_num)

/-- C3.  `set_rpm` clamps each rpm input to `[-3000, 3000]` and reinterprets
it as an unsigned 16-bit two's-complement word, issuing one 2-register write
at the rpm-command address pair: `set_rpm 500 (-500)` writes `[500, 65036]`
at `0x2088`, and every out-of-range input yields the same write as the
nearest clamp bound. -/
theorem C3_set_rpm_encoding :
    set_rpm 500 (-500) = ⟨0x2088, [500, 65036]⟩ ∧
    ∀ L R : ℚ,
      (3000 < L → set_rpm L R = set_rpm 3000 R) ∧
      (L < -3000 → set_rpm L R = set_rpm (-3000) R) ∧
      (3000 < R → set_rpm L R = set_rpm L 3000) ∧
      (R < -3000 → set_rpm L R = set_rpm L (-3000)) := by
  constructor
  · have h1 : clip 500 (-3000) 3000 = ((500 : ℤ) : ℚ) := by norm_num [clip]
    have h2 : clip (-500) (-3000) 3000 = ((-500 : ℤ) : ℚ) := by norm_num [clip]
    simp only [set_rpm, to_int16, h1, h2, ratTrunc_intCast]
    decide
  · intro L R
    have c3000 : clip 3000 (-3000) 3000 = 3000 := by norm_num [clip]
    have cm3000 : clip (-3000) (-3000) 3000 = -3000 := by norm_num [clip]
    refine ⟨fun h => ?_, fun h => ?_, fun h => ?_, fun h => ?_⟩
    · have hc : clip L (-3000) 3000 = clip 3000 (-3000) 3000 := by
        rw [c3000]; unfold clip; rw [if_neg (by linarith), if_pos h]
      simp only [set_rpm, hc]
    · have hc : clip L (-3000) 3000 = clip (-3000) (-3000) 3000 := by
        rw [cm3000]; unfold clip; rw [if_pos h]
      simp only [set_rpm, hc]
    · have hc : clip R (-3000) 3000 = clip 3000 (-3000) 3000 := by
        rw [c3000]; unfold clip; rw [if_neg (by linarith), if_pos h]
      simp only [set_rpm, hc]
    · have hc : clip R (-3000) 3000 = clip (-3000) (-3000) 3000 := by
        rw [cm3000]; unfold clip; rw [if_pos h]
      simp only [set_rpm, hc]

/-- Witness for C3 at out-of-range inputs 4000 and -4000. -/
theorem C3_set_rpm_encoding_witness :
    set_rpm 4000 (-4000) = set_rpm 3000 (-4000) ∧
    set_rpm 3000 (-4000) = set_rpm 3000 (-3000) :=
  ⟨(C3_set_rpm_encoding.2 4000 (-4000)).1 (by norm_num),
   (C3_set_rpm_encoding.2 3000 (-4000)).2.2.2 (by norm_num)⟩

/-- C4.  Split-word packing round-trip: for every degree in `[-1440, 1440]`,
the truncated linear image in `[-65536, 65536]` is recovered exactly by
reassembling the two register words of `deg_to_32bitArray` through
`split_words_to_ticks`. -/
theorem C4_split_roundtrip (deg : ℚ) (h1 : -1440 ≤ deg) (h2 : deg ≤ 1440) :
    split_words_to_ticks ((deg_to_32bitArray deg).getD 0 0)
      ((deg_to_32bitArray deg).getD 1 0) = degDec deg := by
  have hq1 : ((-65536 : ℤ) : ℚ) ≤ map deg (-1440) 1440 (-65536) 65536 := by
    unfold map
    push_cast
    linarith
  have hq2 : map deg (-1440) 1440 (-65536) 65536 ≤ ((65536 : ℤ) : ℚ) := by
    unfold map
    push_cast
    linarith
  have hlo : (-65536 : ℤ) ≤ degDec deg := le_ratTrunc_of_nonpos (by norm_num) hq1
  have hhi : degDec deg ≤ 65536 := ratTrunc_le_of_nonneg (by norm_num) hq2
  have := split_words_roundtrip (degDec deg) (by omega) (by omega)
  simpa [deg_to_32bitArray] using this

/-- Witness for C4 at the in-domain input 45° (whose image is exactly 2048). -/
theorem C4_split_roundtrip_witness :
    split_words_to_ticks ((deg_to_32bitArray 45).getD 0 0)
      ((deg_to_32bitArray 45).getD 1 0) = degDec 45 :=
  C4_split_roundtrip 45 (by norm_num) (by norm_num)

/-- C5.  `set_mode` rejects any mode outside `{1, 2, 3}` before issuing any
I/O (returning its invalid-mode result with no register write), and for a
mode in `{1, 2, 3}` issues exactly one write of that value to the mode
register `0x200D`. -/
theorem C5_set_mode_validity :
    (∀ m : ℤ, set_mode m = SetModeResult.invalidMode ↔ m ≠ 1 ∧ m ≠ 2 ∧ m ≠ 3) ∧
    (∀ m : ℤ, m = 1 ∨ m = 2 ∨ m = 3 →
      set_mode m = SetModeResult.ok ⟨0x200D, [m.toNat]⟩) := by
  constructor
  · intro m
    unfold set_mode
    split
    · rename_i h
      simp only [reduceCtorEq, false_iff]
      tauto
    · rename_i h
      simp only [true_iff]
      tauto
  · intro m hm
    unfold set_mode
    rw [if_pos hm]
    rfl

/-- Witness for C5 at the valid mode 3 and the invalid mode 5. -/
theorem C5_set_mode_validity_witness :
    set_mode 3 = SetModeResult.ok ⟨0x200D, [3]⟩ ∧
    set_mode 5 = SetModeResult.invalidMode :=
  ⟨by simpa using C5_set_mode_validity.2 3 (by norm_num),
   (C5_set_mode_validity.1 5).mpr (by norm_num)⟩

lemma time_clamp_toNat_le (x : ℚ) :
    (ratTrunc (if 32767 < x then (32767 : ℚ) else if x < 0 then 0 else x)).toNat
      ≤ 32767 := by
  have hle : (if 32767 < x then (32767 : ℚ) else if x < 0 then 0 else x)
      ≤ ((32767 : ℤ) : ℚ) := by
    split_ifs <;> push_cast <;> linarith
  have := ratTrunc_le_of_nonneg (show (0 : ℤ) ≤ 32767 by norm_num) hle
  omega

/-- C8.  Accel and decel time setpoints are saturated to `[0, 32767]` before
the single 2-register write, never rejected: `-5` writes `0`, `40000` writes
`32767`, `100` is written unchanged — identically for `set_accel_time`
(address `0x2080`) and `set_decel_time` (address `0x2082`) and for both the
left and right values; moreover every written word is at most `32767`. -/
theorem C8_time_saturation :
    set_accel_time (-5) 40000 = ⟨0x2080, [0, 32767]⟩ ∧
    set_accel_time 40000 100 = ⟨0x2080, [32767, 100]⟩ ∧
    set_accel_time 100 (-5) = ⟨0x2080, [100, 0]⟩ ∧
    set_decel_time (-5) 40000 = ⟨0x2082, [0, 32767]⟩ ∧
    set_decel_time 40000 100 = ⟨0x2082, [32767, 100]⟩ ∧
    set_decel_time 100 (-5) = ⟨0x2082, [100, 0]⟩ ∧
    ∀ L R : ℚ,
      ((set_accel_time L R).values.all fun v => v ≤ 32767) = true ∧
      ((set_decel_time L R).values.all fun v => v ≤ 32767) = true := by
  refine ⟨?_, ?_, ?_, ?_, ?_, ?_, fun L R => ?_⟩
  · norm_num [set_accel_time, ratTrunc, L_ACL_TIME]; omega
  · norm_num [set_accel_time, ratTrunc, L_ACL_TIME]; omega
  · norm_num [set_accel_time, ratTrunc, L_ACL_TIME]; omega
  · norm_num [set_decel_time, ratTrunc, L_DCL_TIME]; omega
  · norm_num [set_decel_time, ratTrunc, L_DCL_TIME]; omega
  · norm_num [set_decel_time, ratTrunc, L_DCL_TIME]; omega
  · constructor <;>
      simp only [set_accel_time, set_decel_time, List.all_cons, List.all_nil,
        Bool.and_true, Bool.and_eq_true, decide_eq_true_eq] <;>
      exact ⟨time_clamp_toNat_le _, time_clamp_toNat_le _⟩

/-- C6.  If the register client returns malformed responses for the first
`N` calls and then a well-formed response with exactly the expected word
count, the read-with-retry handler terminates (any fuel above `N` suffices),
returns exactly the words of that first well-formed response, and issues
exactly `N + 1` reads. -/
theorem C6_read_retry (resp : ℕ → Option (List ℕ)) (word N fuel : ℕ)
    (regs : List ℕ) (hmal : ∀ i, i < N → resp i = none)
    (hgood : resp N = some regs) (hlen : regs.length = word) (hfuel : N < fuel) :
    modbus_fail_read_handler resp word 0 fuel = some (regs, N + 1) := by
  subst hlen
  have h := modbus_fail_read_handler_spec resp regs.length regs N 0 fuel
    (fun i hi => by simpa using hmal i hi) (by simpa using hgood) le_rfl hfuel
  rw [h, List.take_length]
  simp

/-- Response trace for the C6 witness: malformed twice, then the well-formed
pair `[7, 8]`. -/
def respC6 : ℕ → Option (List ℕ) := fun i => if i < 2 then none else some [7, 8]

/-- Witness for C6: two malformed responses followed by `[7, 8]` make the
handler return `[7, 8]` after exactly 3 reads. -/
theorem C6_read_retry_witness :
    modbus_fail_read_handler respC6 2 0 3 = some ([7, 8], 3) :=
  C6_read_retry respC6 2 2 3 [7, 8] (by decide) (by rfl) (by rfl) (by norm_num)

/-- C7.  `get_wheels_travelled` reads 4 registers in one transaction at
`0x20A7` (left-hi, left-lo, right-hi, right-lo), reassembles each axis into
a signed 32-bit tick count, and returns `(ticks / 16384) * (2π·radius)` per
axis; with registers `[0, 1000, 0, 0xFFFF]` and the default radius 0.0635 m
the left value is `(1000/16384)·2π·0.0635` and the right value comes from
the reassembled integer 65535. -/
theorem C7_wheels_travelled (piA RW : ℚ) :
    get_wheels_travelled piA (127 / 2000) [0, 1000, 0, 65535] =
      (⟨0x20A7, 4⟩, (1000 / 16384 * (2 * piA * (127 / 2000)),
        65535 / 16384 * (2 * piA * (127 / 2000)))) ∧
    ∀ hi lo hi2 lo2 : ℕ,
      get_wheels_travelled piA RW [hi, lo, hi2, lo2] =
        (⟨0x20A7, 4⟩,
         ((split_words_to_ticks hi lo : ℚ) / 16384 * (2 * piA * RW),
          (split_words_to_ticks hi2 lo2 : ℚ) / 16384 * (2 * piA * RW))) := by
  constructor
  · have h1 : split_words_to_ticks 0 1000 = 1000 := by decide
    have h2 : split_words_to_ticks 0 65535 = 65535 := by decide
    simp [get_wheels_travelled, h1, h2, travel_in_one_rev, cpr, L_FB_POS_HI]
  · intro hi lo hi2 lo2
    simp [get_wheels_travelled, travel_in_one_rev, cpr, L_FB_POS_HI]

/-- C9.  `get_linear_velocities` decodes each rpm feedback word as a signed
16-bit value divided by 10, then converts `(left_rpm, -right_rpm)` to m/s:
only the right wheel's sign is inverted before conversion. -/
theorem C9_velocity_decode (piA RW : ℚ) (w1 w2 : ℕ) :
    get_linear_velocities piA RW [w1, w2] =
      (rpm_to_linear piA RW ((np_int16 w1 : ℚ) / 10),
       rpm_to_linear piA RW (-((np_int16 w2 : ℚ) / 10))) ∧
    get_linear_velocities piA RW [10, 10] = (piA * RW / 30, -(piA * RW / 30)) ∧
    get_rpm [65535, 0] = (-(1 / 10), 0) := by
  refine ⟨?_, ?_, ?_⟩
  · simp [get_linear_velocities, get_rpm]
  · have h : np_int16 10 = 10 := by decide
    simp only [get_linear_velocities, get_rpm, h, rpm_to_linear,
      List.getD_cons_zero, List.getD_cons_succ, Prod.mk.injEq]
    constructor <;> push_cast <;> ring
  · have h : np_int16 65535 = -1 := by decide
    have h0 : np_int16 0 = 0 := by decide
    simp [get_rpm, h, h0]
    norm_num

/-- C10.  Unlike the feedback reads routed through
`modbus_fail_read_handler`, the fault query issues exactly one 2-register
read at `0x20A5` with no retry: a malformed first response makes
`get_fault_code` propagate the failure immediately, whereas the retry
handler on the same trace would go on to the next response. -/
theorem C10_fault_read_single_shot :
    (∀ resp : ℕ → Option (List ℕ),
      (get_fault_code resp).1 = ⟨0x20A5, 2⟩ ∧ (get_fault_code resp).2.2 = 1) ∧
    (∀ resp : ℕ → Option (List ℕ), resp 0 = none →
      (get_fault_code resp).2.1 = none) ∧
    (∀ (resp : ℕ → Option (List ℕ)) (regs : List ℕ), resp 0 = none →
      resp 1 = some regs → regs.length = 2 →
      modbus_fail_read_handler resp 2 0 2 = some (regs, 2)) := by
  refine ⟨fun resp => ⟨rfl, rfl⟩, fun resp h => ?_,
    fun resp regs h0 h1 hlen => ?_⟩
  · simp [get_fault_code, h]
  · have h := modbus_fail_read_handler_spec resp 2 regs 1 0 2
      (fun i hi => by
        have hi0 : i = 0 := by omega
        subst hi0
        simpa using h0)
      (by simpa using h1) (le_of_eq hlen.symm) (by norm_num)
    have ht : regs.take 2 = regs := by
      rw [← hlen]
      exact List.take_length regs
    rw [h, ht]

/-- Response trace for the C10 witness: malformed first, well-formed pair
second. -/
def respC10 : ℕ → Option (List ℕ) := fun i => if i = 0 then none else some [0, 1024]

/-- Witness for C10: on a trace whose first response is malformed, the fault
query fails at once while the retry handler would succeed on the second
response. -/
theorem C10_fault_read_single_shot_witness :
    (get_fault_code respC10).2.1 = none ∧
    modbus_fail_read_handler respC10 2 0 2 = some ([0, 1024], 2) :=
  ⟨C10_fault_read_single_shot.2.1 respC10 rfl,
   C10_fault_read_single_shot.2.2 respC10 [0, 1024] rfl rfl rfl⟩

end ZLAC
